import Mathlib

/-!
Verification development for the `rsocket-helper` WebSocket core: a shallow
embedding of the frame codec (`internal/infrastructure/frame_parser.go`), the
handshake validator (`internal/infrastructure/handshake.go`), the connection
state machine (`internal/domain/connection.go`), the message value object
(`internal/domain/message.go`) and the frame value object
(`internal/domain/frame.go`).

Go machine integers are modelled as `Nat` with explicit `% 2^w` truncation
where the Go code performs a narrowing conversion.  Octet streams are
`List Nat`; `io.Reader` consumption is explicit state passing (each reading
function returns the unread remainder of the stream).  Fallible operations
return `Except`/`Option`.  Pointer mutation of a `Connection`/`Frame` is
modelled by returning the updated value alongside the Go return value.
-/

set_option maxRecDepth 10000

/-! ## Domain errors (`internal/domain/errors.go`), plus the io read error -/

/-- Error kinds returned by the embedded code.  `eofErr` stands for the
`io` error that `io.ReadFull` returns on a short read; the rest mirror the
sentinel errors of `internal/domain/errors.go`. -/
inductive WsError where
  | eofErr
  | invalidFrameStructure
  | invalidOpcode
  | reservedBitsSet
  | payloadTooLarge
  | invalidState
  | invalidMessageType
deriving DecidableEq

/-! ## Opcodes and frames (`internal/domain/frame.go`) -/

/-- `Opcode.IsControl`: `o >= 0x8` (frame.go line 19). -/
def opcodeIsControl (o : Nat) : Bool := decide (0x8 ≤ o)

/-- `Opcode.IsData`: `o <= 0x2` (frame.go line 24). -/
def opcodeIsData (o : Nat) : Bool := decide (o ≤ 0x2)

/-- `Frame.isValidOpcode`: the exact six-element switch of frame.go line 106. -/
def isValidOpcode (o : Nat) : Bool :=
  o == 0x0 || o == 0x1 || o == 0x2 || o == 0x8 || o == 0x9 || o == 0xA

/-- `domain.Frame` (frame.go line 49).  `MaskingKey [4]byte` is a 4-tuple,
`Payload []byte` a list of octets, `PayloadLen uint64` a `Nat`. -/
structure Frame where
  fin : Bool
  rsv1 : Bool
  rsv2 : Bool
  rsv3 : Bool
  opcode : Nat
  masked : Bool
  payloadLen : Nat
  maskingKey : Nat × Nat × Nat × Nat
  payload : List Nat
deriving DecidableEq

/-- `Frame.Validate` (frame.go line 76): opcode switch, reserved bits,
control-frame length, control-frame fragmentation, length/payload match,
in that order. -/
def frameValidate (f : Frame) : Option WsError :=
  if !(isValidOpcode f.opcode) then some .invalidOpcode
  else if f.rsv1 || f.rsv2 || f.rsv3 then some .reservedBitsSet
  else if opcodeIsControl f.opcode && decide (125 < f.payloadLen) then some .invalidFrameStructure
  else if opcodeIsControl f.opcode && !f.fin then some .invalidFrameStructure
  else if decide (f.payload.length ≠ f.payloadLen) then some .invalidFrameStructure
  else none

/-! ## The frame codec (`internal/infrastructure/frame_parser.go`) -/

/-- `protocol.MaxPayloadSize = 1 << 20` (constants.go line 43). -/
def maxPayloadSizeDefault : Nat := 1 <<< 20

/-- `NewFrameParser` (frame_parser.go line 17): a zero argument selects the
default limit; the parser's only state is the stored `maxPayloadSize`. -/
def newFrameParser (maxPayloadSize : Nat) : Nat :=
  if maxPayloadSize = 0 then maxPayloadSizeDefault else maxPayloadSize

/-- Cyclic masking-key lookup `maskingKey[i%4]` (frame_parser.go line 133). -/
def keyByte (key : Nat × Nat × Nat × Nat) (i : Nat) : Nat :=
  match i % 4 with
  | 0 => key.1
  | 1 => key.2.1
  | 2 => key.2.2.1
  | _ => key.2.2.2

/-- The loop body of `UnmaskPayload` (frame_parser.go line 131) starting at
index `i`: `payload[j] ^= maskingKey[j%4]`. -/
def unmaskFrom (key : Nat × Nat × Nat × Nat) : Nat → List Nat → List Nat
  | _, [] => []
  | i, b :: rest => (b ^^^ keyByte key i) :: unmaskFrom key (i + 1) rest

/-- `FrameParser.UnmaskPayload` (frame_parser.go line 131), as a function on
the buffer value (the Go code updates the buffer in place). -/
def unmaskPayload (payload : List Nat) (key : Nat × Nat × Nat × Nat) : List Nat :=
  unmaskFrom key 0 payload

/-- `io.ReadFull` into a buffer of `n` octets: succeeds with the octets read
and the unread remainder exactly when the stream holds at least `n` octets. -/
def readFull (n : Nat) (s : List Nat) : Option (List Nat × List Nat) :=
  if n ≤ s.length then some (s.take n, s.drop n) else none

/-- `FrameParser.parsePayloadLength` (frame_parser.go line 106): on marker 126
read two octets as big-endian `uint16` (`uint16(b[0])<<8 | uint16(b[1])`),
on marker 127 read eight octets as big-endian `uint64`, otherwise the 7-bit
value stands as is. -/
def parsePayloadLength (s : List Nat) (initialLen : Nat) :
    Except WsError (Nat × List Nat) :=
  if initialLen = 126 then
    match s with
    | b0 :: b1 :: rest => .ok ((b0 <<< 8) ||| b1, rest)
    | _ => .error .eofErr
  else if initialLen = 127 then
    match s with
    | b0 :: b1 :: b2 :: b3 :: b4 :: b5 :: b6 :: b7 :: rest =>
        .ok (((((((((b0 <<< 56) ||| (b1 <<< 48)) ||| (b2 <<< 40)) ||| (b3 <<< 32)) |||
            (b4 <<< 24)) ||| (b5 <<< 16)) ||| (b6 <<< 8)) ||| b7), rest)
    | _ => .error .eofErr
  else .ok (initialLen, s)

/-- Payload phase of `ReadFrame` (frame_parser.go lines 89-102): read
`payloadLen` octets when positive, unmask them when `masked`, and assemble
the `domain.Frame` (whose zero value has an empty payload and a zero key). -/
def finishFrame (fin rsv1 rsv2 rsv3 : Bool) (opcode : Nat) (masked : Bool)
    (payloadLen : Nat) (key : Nat × Nat × Nat × Nat) (s : List Nat) :
    Except WsError (Frame × List Nat) :=
  if 0 < payloadLen then
    match readFull payloadLen s with
    | none => .error .eofErr
    | some (buf, rest) =>
        let payload := if masked then unmaskPayload buf key else buf
        .ok (⟨fin, rsv1, rsv2, rsv3, opcode, masked, payloadLen, key, payload⟩, rest)
  else .ok (⟨fin, rsv1, rsv2, rsv3, opcode, masked, payloadLen, key, []⟩, s)

/-- `FrameParser.ReadFrame` (frame_parser.go line 27).  Field extraction from
the two header octets, then -- in the code's order -- the opcode check
(`!IsControl && !IsData`), the reserved-bits check, the extended payload
length, the size-limit check, the two control-frame shape checks, the
masking key, and the payload. -/
def readFrame (maxPayloadSize : Nat) (s : List Nat) :
    Except WsError (Frame × List Nat) :=
  match s with
  | b0 :: b1 :: rest =>
    let fin : Bool := b0 &&& 0x80 != 0
    let rsv1 : Bool := b0 &&& 0x40 != 0
    let rsv2 : Bool := b0 &&& 0x20 != 0
    let rsv3 : Bool := b0 &&& 0x10 != 0
    let opcode : Nat := b0 &&& 0x0F
    let masked : Bool := b1 &&& 0x80 != 0
    if !(opcodeIsControl opcode) && !(opcodeIsData opcode) then .error .invalidOpcode
    else if rsv1 || rsv2 || rsv3 then .error .reservedBitsSet
    else
      match parsePayloadLength rest (b1 &&& 0x7F) with
      | .error e => .error e
      | .ok (payloadLen, rest₂) =>
        if maxPayloadSize < payloadLen then .error .payloadTooLarge
        else if opcodeIsControl opcode && decide (125 < payloadLen) then
          .error .invalidFrameStructure
        else if opcodeIsControl opcode && !fin then .error .invalidFrameStructure
        else if masked then
          match rest₂ with
          | k0 :: k1 :: k2 :: k3 :: rest₃ =>
              finishFrame fin rsv1 rsv2 rsv3 opcode masked payloadLen (k0, k1, k2, k3) rest₃
          | _ => .error .eofErr
        else finishFrame fin rsv1 rsv2 rsv3 opcode masked payloadLen (0, 0, 0, 0) rest₂
  | _ => .error .eofErr

/-- Octet 0 of `WriteFrame` (frame_parser.go lines 148-160): the opcode with
the `FIN`/`RSV` bits or-ed in one by one. -/
def firstByteOf (f : Frame) : Nat :=
  let b₀ := f.opcode
  let b₁ := if f.fin then b₀ ||| 0x80 else b₀
  let b₂ := if f.rsv1 then b₁ ||| 0x40 else b₁
  let b₃ := if f.rsv2 then b₂ ||| 0x20 else b₂
  if f.rsv3 then b₃ ||| 0x10 else b₃

/-- `binary.BigEndian.PutUint16`: `b[0] = byte(v>>8); b[1] = byte(v)`. -/
def putUint16 (v : Nat) : List Nat := [(v >>> 8) % 256, v % 256]

/-- `binary.BigEndian.PutUint64`: `b[i] = byte(v >> (56-8*i))`. -/
def putUint64 (v : Nat) : List Nat :=
  [(v >>> 56) % 256, (v >>> 48) % 256, (v >>> 40) % 256, (v >>> 32) % 256,
   (v >>> 24) % 256, (v >>> 16) % 256, (v >>> 8) % 256, v % 256]

/-- The length section of `WriteFrame` (frame_parser.go lines 163-188): the
second octet (mask bit or-ed with the length bits) followed by the extended
length octets that the three ranges call for. -/
def lengthOctets (f : Frame) : List Nat :=
  let sb := if f.masked then 0 ||| 0x80 else 0
  if f.payloadLen ≤ 125 then [sb ||| f.payloadLen]
  else if f.payloadLen ≤ 65535 then (sb ||| 126) :: putUint16 f.payloadLen
  else (sb ||| 127) :: putUint64 f.payloadLen

/-- The four masking-key octets `frame.MaskingKey[:]` in order. -/
def keyOctets (key : Nat × Nat × Nat × Nat) : List Nat :=
  [key.1, key.2.1, key.2.2.1, key.2.2.2]

/-- `FrameParser.WriteFrame` (frame_parser.go line 138): validate, then emit
header, optional masking key and payload.  When `masked`, the code masks a
fresh copy of `frame.Payload` (lines 204-207), so the caller's frame is
returned unchanged; the writer is modelled by returning the emitted octets. -/
def writeFrame (f : Frame) : Except WsError (List Nat × Frame) :=
  match frameValidate f with
  | some e => .error e
  | none =>
    let header := firstByteOf f :: lengthOctets f ++
      (if f.masked then keyOctets f.maskingKey else [])
    let payloadOut :=
      if 0 < f.payload.length then
        if f.masked then unmaskPayload f.payload f.maskingKey else f.payload
      else []
    .ok (header ++ payloadOut, f)

/-! ## Connection state machine (`internal/domain/connection.go`) -/

/-- `domain.ConnectionState` (connection.go line 11). -/
inductive ConnectionState where
  | stateConnecting
  | stateOpen
  | stateClosing
  | stateClosed
deriving DecidableEq

/-- `domain.Connection` (connection.go line 39).  `time.Time` is modelled as
a `Nat` tick; the metadata map as an association list. -/
structure Connection where
  id : String
  remoteAddr : String
  state : ConnectionState
  lastActivity : Nat
  metadata : List (String × String)
deriving DecidableEq

/-- `NewConnection` (connection.go line 48): state `Connecting`, activity
stamped with the current time, empty metadata.  The current time is an
explicit argument. -/
def newConnection (id remoteAddr : String) (now : Nat) : Connection :=
  ⟨id, remoteAddr, .stateConnecting, now, []⟩

/-- `Connection.CanTransitionTo` (connection.go line 59). -/
def canTransitionTo (c : Connection) (newState : ConnectionState) : Bool :=
  match c.state with
  | .stateConnecting => newState == .stateOpen || newState == .stateClosed
  | .stateOpen => newState == .stateClosing || newState == .stateClosed
  | .stateClosing => newState == .stateClosed
  | .stateClosed => false

/-- `Connection.TransitionTo` (connection.go line 75): the Go error return
and the connection as the caller sees it after the call. -/
def transitionTo (c : Connection) (newState : ConnectionState) :
    Option WsError × Connection :=
  if !(canTransitionTo c newState) then (some .invalidState, c)
  else (none, { c with state := newState })

/-- `Connection.UpdateActivity` (connection.go line 84): stamps
`lastActivity` with the current time, unconditionally. -/
def updateActivity (c : Connection) (now : Nat) : Connection :=
  { c with lastActivity := now }

/-! ## Messages (`internal/domain/message.go`) -/

/-- `domain.Message` (message.go line 28).  `MessageType` is a Go `int`,
modelled as `Int` so that hand-assembled invalid tags (e.g. 99) exist;
`MessageTypeText = 0`, `MessageTypeBinary = 1`. -/
structure Message where
  type : Int
  payload : List Nat
deriving DecidableEq

/-- `Message.Validate` (message.go line 50). -/
def messageValidate (m : Message) : Option WsError :=
  if m.type ≠ 0 ∧ m.type ≠ 1 then some .invalidMessageType else none

/-- `Message.ToOpcode` (message.go line 72): Text to 0x1, Binary to 0x2,
default to 0x2. -/
def toOpcode (m : Message) : Nat :=
  if m.type = 0 then 0x1
  else if m.type = 1 then 0x2
  else 0x2

/-! ## Handshake validation (`internal/infrastructure/handshake.go`) -/

/-- ASCII model of Go `strings.EqualFold` on a single character. -/
def lowerAscii (c : Char) : Char :=
  if 'A' ≤ c ∧ c ≤ 'Z' then Char.ofNat (c.toNat + 32) else c

/-- Go `strings.EqualFold` restricted to ASCII case folding (the header
values this code compares are ASCII). -/
def equalFold (a b : String) : Bool :=
  a.data.map lowerAscii == b.data.map lowerAscii

/-- ASCII whitespace, as trimmed by Go `strings.TrimSpace`. -/
def isSpaceAscii (c : Char) : Bool :=
  c == ' ' || c == '\t' || c == '\n' || c == '\x0b' || c == '\x0c' || c == '\r'

/-- Go `strings.TrimSpace` (ASCII model): drop whitespace from both ends. -/
def trimSpace (s : String) : String :=
  String.mk (((s.data.dropWhile isSpaceAscii).reverse.dropWhile isSpaceAscii).reverse)

/-- Go `strings.Split(s, ",")`, written as structural recursion on the
characters: chunks between commas, with `""` splitting to `[""]` and empty
chunks preserved. -/
def splitCommaAux : List Char → List Char → List String
  | acc, [] => [String.mk acc.reverse]
  | acc, ch :: rest =>
      if ch = ',' then String.mk acc.reverse :: splitCommaAux [] rest
      else splitCommaAux (ch :: acc) rest

/-- Go `strings.Split(header, ",")`. -/
def splitComma (s : String) : List String := splitCommaAux [] s.data

/-- `containsToken` (handshake.go line 88): split on commas, trim each token,
compare case-insensitively. -/
def containsToken (header token : String) : Bool :=
  (splitComma header).any fun t => equalFold (trimSpace t) token

/-- Which of the four handshake checks failed (the Go code returns four
distinct formatted errors). -/
inductive HandshakeFailure where
  | badUpgrade
  | badConnection
  | missingKey
  | badVersion
deriving DecidableEq

/-- `HandshakeValidator.ValidateRequest` (handshake.go line 22).  The four
header values are the results of `req.Header.Get`, which yields `""` for a
missing header.  Checks run in source order: Upgrade, Connection, Key,
Version. -/
def validateRequest (upgrade connection key version : String) :
    Option HandshakeFailure :=
  if !(equalFold upgrade ("websocket")) then some .badUpgrade
  else if !(containsToken connection ("Upgrade")) then some .badConnection
  else if key = "" then some .missingKey
  else if version ≠ "13" then some .badVersion
  else none

/-! ## SHA-1 and base64 (Go `crypto/sha1`, `encoding/base64`)

`GenerateAcceptKey` calls Go's standard library.  These are faithful models
of SHA-1 (FIPS 180-4, what `crypto/sha1` computes) and of standard base64
with padding (`base64.StdEncoding`), written with structural recursion so
that the kernel can evaluate them on concrete inputs. -/

/-- Truncation to a 32-bit word. -/
def w32 (x : Nat) : Nat := x % 4294967296

/-- 32-bit left rotation of a word `x < 2^32`. -/
def rotl32 (x k : Nat) : Nat := w32 (x <<< k) ||| (x >>> (32 - k))

/-- The SHA-1 round function: Ch, Parity, Maj, Parity on the four
20-round stretches. -/
def sha1F (i b c d : Nat) : Nat :=
  if i < 20 then (b &&& c) ||| ((b ^^^ 4294967295) &&& d)
  else if i < 40 then (b ^^^ c) ^^^ d
  else if i < 60 then ((b &&& c) ||| (b &&& d)) ||| (c &&& d)
  else (b ^^^ c) ^^^ d

/-- The SHA-1 round constants. -/
def sha1K (i : Nat) : Nat :=
  if i < 20 then 1518500249
  else if i < 40 then 1859775393
  else if i < 60 then 2400959708
  else 3395469782

/-- Big-endian 32-bit words of a block of octets. -/
def toWords : List Nat → List Nat
  | b0 :: b1 :: b2 :: b3 :: rest =>
      (((((b0 <<< 8) ||| b1) <<< 8) ||| b2) <<< 8 ||| b3) :: toWords rest
  | _ => []

/-- Message-schedule extension on the reversed word list: prepend
`rotl1 (w[t-3] ^ w[t-8] ^ w[t-14] ^ w[t-16])` for `n` steps. -/
def extendRev : Nat → List Nat → List Nat
  | 0, ws => ws
  | n + 1, ws =>
      extendRev n
        (rotl32 (((ws.getD 2 0) ^^^ (ws.getD 7 0)) ^^^ ((ws.getD 13 0) ^^^ (ws.getD 15 0))) 1 :: ws)

/-- The 80-word message schedule of a 64-octet block. -/
def sha1Schedule (block : List Nat) : List Nat :=
  (extendRev 64 (toWords block).reverse).reverse

/-- The 80 compression rounds, one per scheduled word. -/
def sha1Rounds : Nat → List Nat → Nat × Nat × Nat × Nat × Nat → Nat × Nat × Nat × Nat × Nat
  | _, [], st => st
  | i, w :: ws, (a, b, c, d, e) =>
      sha1Rounds (i + 1) ws
        (w32 (rotl32 a 5 + sha1F i b c d + e + sha1K i + w), a, rotl32 b 30, c, d)

/-- One block: run the rounds and add the result into the running state. -/
def sha1Block (st : Nat × Nat × Nat × Nat × Nat) (block : List Nat) :
    Nat × Nat × Nat × Nat × Nat :=
  match st, sha1Rounds 0 (sha1Schedule block) st with
  | (h0, h1, h2, h3, h4), (a, b, c, d, e) =>
      (w32 (h0 + a), w32 (h1 + b), w32 (h2 + c), w32 (h3 + d), w32 (h4 + e))

/-- Process `n` 64-octet blocks of the padded message. -/
def sha1Chunks : Nat → List Nat → Nat × Nat × Nat × Nat × Nat → Nat × Nat × Nat × Nat × Nat
  | 0, _, st => st
  | n + 1, msg, st => sha1Chunks n (msg.drop 64) (sha1Block st (msg.take 64))

/-- Big-endian octets of a 32-bit word. -/
def be32 (x : Nat) : List Nat :=
  [(x >>> 24) % 256, (x >>> 16) % 256, (x >>> 8) % 256, x % 256]

/-- SHA-1 padding: `0x80`, zeros to 56 mod 64, then the bit length as a
big-endian 64-bit integer. -/
def sha1Pad (msg : List Nat) : List Nat :=
  msg ++ 128 :: List.replicate ((120 - (msg.length + 1) % 64) % 64) 0 ++
    putUint64 (8 * msg.length)

/-- SHA-1 of a list of octets: a 20-octet digest. -/
def sha1 (msg : List Nat) : List Nat :=
  let p := sha1Pad msg
  match sha1Chunks (p.length / 64) p
      (1732584193, 4023233417, 2562383102, 271733878, 3285377520) with
  | (h0, h1, h2, h3, h4) => be32 h0 ++ be32 h1 ++ be32 h2 ++ be32 h3 ++ be32 h4

/-- The standard base64 alphabet. -/
def b64Alphabet : List Char :=
  ("ABCDEFGHIJKLMNOPQRSTUVWXYZabcdefghijklmnopqrstuvwxyz0123456789+/").data

/-- Character for a 6-bit group. -/
def b64Char (i : Nat) : Char := b64Alphabet.getD i 'A'

/-- Standard base64 with padding, three octets to four characters. -/
def base64Core : List Nat → List Char
  | b0 :: b1 :: b2 :: rest =>
      b64Char (b0 / 4) :: b64Char ((b0 % 4) * 16 + b1 / 16) ::
        b64Char ((b1 % 16) * 4 + b2 / 64) :: b64Char (b2 % 64) :: base64Core rest
  | [b0, b1] => [b64Char (b0 / 4), b64Char ((b0 % 4) * 16 + b1 / 16), b64Char ((b1 % 16) * 4), '=']
  | [b0] => [b64Char (b0 / 4), b64Char ((b0 % 4) * 16), '=', '=']
  | [] => []

/-- `base64.StdEncoding.EncodeToString`. -/
def base64Encode (bs : List Nat) : String := String.mk (base64Core bs)

/-- UTF-8 octets of one character (Go `[]byte(string)` conversion). -/
def utf8Char (c : Char) : List Nat :=
  let n := c.toNat
  if n < 128 then [n]
  else if n < 2048 then [192 ||| (n >>> 6), 128 ||| (n &&& 63)]
  else if n < 65536 then
    [224 ||| (n >>> 12), 128 ||| ((n >>> 6) &&& 63), 128 ||| (n &&& 63)]
  else
    [240 ||| (n >>> 18), 128 ||| ((n >>> 12) &&& 63), 128 ||| ((n >>> 6) &&& 63),
     128 ||| (n &&& 63)]

/-- Go `[]byte(s)`: the UTF-8 octets of a string. -/
def utf8Bytes (s : String) : List Nat := (s.data.map utf8Char).flatten

/-- `protocol.WebSocketGUID` (constants.go line 7). -/
def webSocketGUID : String := "258EAFA5-E914-47DA-95CA-C5AB0DC85B11"

/-- `HandshakeValidator.GenerateAcceptKey` (handshake.go line 52):
`base64(SHA1(key + GUID))`. -/
def generateAcceptKey (key : String) : String :=
  base64Encode (sha1 (utf8Bytes (key ++ webSocketGUID)))

/-! ## Bitwise arithmetic helpers -/

theorem land_pow2_sub_one (x k : Nat) : x &&& (2 ^ k - 1) = x % 2 ^ k := by
  apply Nat.eq_of_testBit_eq
  intro i
  rw [Nat.testBit_land, Nat.testBit_two_pow_sub_one, Nat.testBit_mod_two_pow]
  cases x.testBit i <;> simp

theorem land_15 (x : Nat) : x &&& 15 = x % 16 := by
  have h := land_pow2_sub_one x 4; norm_num at h; exact h

theorem land_127 (x : Nat) : x &&& 127 = x % 128 := by
  have h := land_pow2_sub_one x 7; norm_num at h; exact h

theorem land_pow2 (x k : Nat) : x &&& 2 ^ k = x / 2 ^ k % 2 * 2 ^ k := by
  apply Nat.eq_of_testBit_eq
  intro i
  rw [Nat.testBit_land, Nat.testBit_two_pow]
  rcases Nat.mod_two_eq_zero_or_one (x / 2 ^ k) with h2 | h2 <;> rw [h2]
  · by_cases hk : k = i
    · subst hk
      simp [Nat.testBit_to_div_mod, h2]
    · simp [hk]
  · rw [one_mul]
    by_cases hk : k = i
    · subst hk
      simp [Nat.testBit_to_div_mod, h2, Nat.testBit_two_pow]
    · simp [hk, Nat.testBit_two_pow]

theorem land_128 (x : Nat) : x &&& 128 = x / 128 % 2 * 128 := by
  have h := land_pow2 x 7; norm_num at h; exact h

theorem land_64 (x : Nat) : x &&& 64 = x / 64 % 2 * 64 := by
  have h := land_pow2 x 6; norm_num at h; exact h

theorem land_32 (x : Nat) : x &&& 32 = x / 32 % 2 * 32 := by
  have h := land_pow2 x 5; norm_num at h; exact h

theorem land_16 (x : Nat) : x &&& 16 = x / 16 % 2 * 16 := by
  have h := land_pow2 x 4; norm_num at h; exact h

theorem lor_mod_pow2 (x y k : Nat) : (x ||| y) % 2 ^ k = (x % 2 ^ k) ||| (y % 2 ^ k) := by
  apply Nat.eq_of_testBit_eq
  intro i
  simp [Nat.testBit_mod_two_pow, Nat.testBit_lor, Bool.and_or_distrib_left]

theorem lor_shiftRight (x y k : Nat) : (x ||| y) >>> k = (x >>> k) ||| (y >>> k) := by
  apply Nat.eq_of_testBit_eq
  intro i
  simp [Nat.testBit_shiftRight, Nat.testBit_lor]

theorem lor_eq_add {a b k : Nat} (hb : b < 2 ^ k) : (a * 2 ^ k) ||| b = a * 2 ^ k + b := by
  have hmod : ((a * 2 ^ k) ||| b) % 2 ^ k = b := by
    rw [lor_mod_pow2, Nat.mul_mod_left, Nat.mod_eq_of_lt hb, Nat.zero_or]
  have hdiv : ((a * 2 ^ k) ||| b) / 2 ^ k = a := by
    have h := lor_shiftRight (a * 2 ^ k) b k
    rw [Nat.shiftRight_eq_div_pow, Nat.shiftRight_eq_div_pow, Nat.shiftRight_eq_div_pow] at h
    rw [h, Nat.mul_div_cancel _ (Nat.two_pow_pos k), Nat.div_eq_of_lt hb, Nat.or_zero]
  calc (a * 2 ^ k) ||| b
      = 2 ^ k * (((a * 2 ^ k) ||| b) / 2 ^ k) + ((a * 2 ^ k) ||| b) % 2 ^ k :=
        (Nat.div_add_mod _ _).symm
    _ = a * 2 ^ k + b := by rw [hdiv, hmod]; ring

theorem lor_128_add {n : Nat} (h : n < 128) : 128 ||| n = 128 + n := by
  have h128 := lor_eq_add (a := 1) (k := 7) (b := n) (by norm_num; omega)
  norm_num at h128
  exact h128

theorem shiftLeft_lor_shiftLeft (x y k : Nat) :
    (x <<< k) ||| (y <<< k) = (x ||| y) <<< k := by
  apply Nat.eq_of_testBit_eq
  intro i
  rw [Nat.testBit_lor, Nat.testBit_shiftLeft, Nat.testBit_shiftLeft,
    Nat.testBit_shiftLeft, Nat.testBit_lor, Bool.and_or_distrib_left]

theorem be_step {m b k : Nat} (hb : b < 256) :
    (m * 2 ^ (k + 8)) ||| (b <<< k) = (m * 256 + b) * 2 ^ k := by
  have h1 : m * 2 ^ (k + 8) = (m * 256) <<< k := by
    rw [Nat.shiftLeft_eq, pow_add]; norm_num; ring
  have h2 : (m * 256) ||| b = m * 256 + b := by
    have := lor_eq_add (a := m) (k := 8) (b := b) (by norm_num; omega)
    norm_num at this
    exact this
  rw [h1, shiftLeft_lor_shiftLeft, h2, Nat.shiftLeft_eq]

theorem parse_flags_lo {o : Nat} (ho : o < 16) :
    o &&& 128 = 0 ∧ o &&& 64 = 0 ∧ o &&& 32 = 0 ∧ o &&& 16 = 0 ∧ o &&& 15 = o := by
  rw [land_128, land_64, land_32, land_16, land_15]
  omega

theorem parse_flags_hi {o : Nat} (ho : o < 16) :
    (o ||| 128) &&& 128 = 128 ∧ (o ||| 128) &&& 64 = 0 ∧ (o ||| 128) &&& 32 = 0 ∧
      (o ||| 128) &&& 16 = 0 ∧ (o ||| 128) &&& 15 = o := by
  rw [Nat.lor_comm, lor_128_add (by omega)]
  rw [land_128, land_64, land_32, land_16, land_15]
  omega

theorem sb_masked_facts {n : Nat} (hn : n < 128) :
    (128 ||| n) &&& 128 = 128 ∧ (128 ||| n) &&& 127 = n := by
  rw [lor_128_add hn, land_128, land_127]
  omega

theorem sb_unmasked_facts {n : Nat} (hn : n < 128) :
    n &&& 128 = 0 ∧ n &&& 127 = n := by
  rw [land_128, land_127]
  omega

theorem be16_val {n : Nat} (h : n < 65536) :
    (((n >>> 8) % 256) <<< 8) ||| (n % 256) = n := by
  rw [Nat.shiftRight_eq_div_pow]
  norm_num
  have h1 : n / 256 % 256 = n / 256 := Nat.mod_eq_of_lt (by omega)
  rw [h1, Nat.shiftLeft_eq]
  have h2 := lor_eq_add (a := n / 256) (k := 8) (b := n % 256) (by norm_num; omega)
  rw [h2]
  omega

theorem be64_assemble {b0 b1 b2 b3 b4 b5 b6 b7 : Nat}
    (h1 : b1 < 256) (h2 : b2 < 256) (h3 : b3 < 256) (h4 : b4 < 256)
    (h5 : b5 < 256) (h6 : b6 < 256) (h7 : b7 < 256) :
    ((((((((b0 <<< 56) ||| (b1 <<< 48)) ||| (b2 <<< 40)) ||| (b3 <<< 32)) |||
        (b4 <<< 24)) ||| (b5 <<< 16)) ||| (b6 <<< 8)) ||| b7) =
    ((((((b0 * 256 + b1) * 256 + b2) * 256 + b3) * 256 + b4) * 256 + b5) * 256 + b6)
      * 256 + b7 := by
  have e1 : (b0 <<< 56) ||| (b1 <<< 48) = (b0 * 256 + b1) * 2 ^ 48 := by
    rw [show b0 <<< 56 = b0 * 2 ^ (48 + 8) by rw [Nat.shiftLeft_eq]]
    exact be_step h1
  have e2 : ((b0 * 256 + b1) * 2 ^ 48) ||| (b2 <<< 40) =
      ((b0 * 256 + b1) * 256 + b2) * 2 ^ 40 := be_step h2
  have e3 : (((b0 * 256 + b1) * 256 + b2) * 2 ^ 40) ||| (b3 <<< 32) =
      (((b0 * 256 + b1) * 256 + b2) * 256 + b3) * 2 ^ 32 := be_step h3
  have e4 : ((((b0 * 256 + b1) * 256 + b2) * 256 + b3) * 2 ^ 32) ||| (b4 <<< 24) =
      ((((b0 * 256 + b1) * 256 + b2) * 256 + b3) * 256 + b4) * 2 ^ 24 := be_step h4
  have e5 : (((((b0 * 256 + b1) * 256 + b2) * 256 + b3) * 256 + b4) * 2 ^ 24) |||
      (b5 <<< 16) =
      (((((b0 * 256 + b1) * 256 + b2) * 256 + b3) * 256 + b4) * 256 + b5) * 2 ^ 16 :=
    be_step h5
  have e6 : ((((((b0 * 256 + b1) * 256 + b2) * 256 + b3) * 256 + b4) * 256 + b5)
      * 2 ^ 16) ||| (b6 <<< 8) =
      ((((((b0 * 256 + b1) * 256 + b2) * 256 + b3) * 256 + b4) * 256 + b5) * 256 + b6)
        * 2 ^ 8 := be_step h6
  have e7 : (((((((b0 * 256 + b1) * 256 + b2) * 256 + b3) * 256 + b4) * 256 + b5)
      * 256 + b6) * 2 ^ 8) ||| b7 =
      (((((((b0 * 256 + b1) * 256 + b2) * 256 + b3) * 256 + b4) * 256 + b5) * 256 + b6)
        * 256 + b7) := by
    have := lor_eq_add (a := (((((b0 * 256 + b1) * 256 + b2) * 256 + b3) * 256 + b4)
      * 256 + b5) * 256 + b6) (k := 8) (b := b7) (by norm_num; omega)
    norm_num at this
    exact this
  rw [e1, e2, e3, e4, e5, e6, e7]


/-! ## Codec evaluation lemmas -/

theorem unmaskFrom_length (key : Nat × Nat × Nat × Nat) :
    ∀ (i : Nat) (p : List Nat), (unmaskFrom key i p).length = p.length
  | _, [] => rfl
  | i, _ :: rest => by
      simp [unmaskFrom, unmaskFrom_length key (i + 1) rest]

theorem unmaskFrom_involution (key : Nat × Nat × Nat × Nat) :
    ∀ (i : Nat) (p : List Nat), unmaskFrom key i (unmaskFrom key i p) = p
  | _, [] => rfl
  | i, b :: rest => by
      simp [unmaskFrom, Nat.xor_cancel_right, unmaskFrom_involution key (i + 1) rest]

theorem readFull_all {n : Nat} {xs : List Nat} (h : xs.length = n) :
    readFull n xs = some (xs, []) := by
  subst h
  simp [readFull]

theorem finishFrame_exact (fin rsv1 rsv2 rsv3 : Bool) (o : Nat) (masked : Bool)
    (n : Nat) (key : Nat × Nat × Nat × Nat) (xs : List Nat) (h : xs.length = n) :
    finishFrame fin rsv1 rsv2 rsv3 o masked n key xs =
      .ok (⟨fin, rsv1, rsv2, rsv3, o, masked, n, key,
        if masked then unmaskPayload xs key else xs⟩, []) := by
  by_cases hp : 0 < n
  · simp [finishFrame, hp, readFull_all h]
  · have hn0 : n = 0 := by omega
    subst hn0
    have hxs : xs = [] := List.eq_nil_of_length_eq_zero h
    subst hxs
    cases masked <;> simp [finishFrame, unmaskPayload, unmaskFrom]

theorem parse_len_direct {n : Nat} (s : List Nat) (h : n ≤ 125) :
    parsePayloadLength s n = .ok (n, s) := by
  unfold parsePayloadLength
  rw [if_neg (by omega), if_neg (by omega)]

theorem fb_decomp (f : Frame) (h1 : f.rsv1 = false) (h2 : f.rsv2 = false)
    (h3 : f.rsv3 = false) :
    firstByteOf f = if f.fin then f.opcode ||| 128 else f.opcode := by
  simp [firstByteOf, h1, h2, h3]

theorem fb_facts (f : Frame) (ho : f.opcode < 16) (h1 : f.rsv1 = false)
    (h2 : f.rsv2 = false) (h3 : f.rsv3 = false) :
    firstByteOf f &&& 15 = f.opcode ∧ (firstByteOf f &&& 128 != 0) = f.fin ∧
      firstByteOf f &&& 64 = 0 ∧ firstByteOf f &&& 32 = 0 ∧ firstByteOf f &&& 16 = 0 := by
  rw [fb_decomp f h1 h2 h3]
  cases hf : f.fin
  · obtain ⟨a, b, c, d, e⟩ := parse_flags_lo ho
    simp [a, b, c, d, e]
  · obtain ⟨a, b, c, d, e⟩ := parse_flags_hi ho
    simp [a, b, c, d, e]

theorem readFrame_eval_unmasked (M : Nat) (b0 b1 : Nat) (s : List Nat)
    (o n : Nat) (s₂ : List Nat)
    (hb15 : b0 &&& 15 = o)
    (hb64 : b0 &&& 64 = 0) (hb32 : b0 &&& 32 = 0) (hb16 : b0 &&& 16 = 0)
    (hbm : b1 &&& 128 = 0)
    (hcls : o ≤ 2 ∨ 8 ≤ o)
    (hparse : parsePayloadLength s (b1 &&& 127) = .ok (n, s₂))
    (hmax : n ≤ M)
    (hctl : 8 ≤ o → n ≤ 125 ∧ (b0 &&& 128 != 0) = true) :
    readFrame M (b0 :: b1 :: s) =
      finishFrame (b0 &&& 128 != 0) false false false o false n (0, 0, 0, 0) s₂ := by
  have hop : (!(opcodeIsControl (b0 &&& 15)) && !(opcodeIsData (b0 &&& 15))) = false := by
    rw [hb15]
    rcases hcls with h | h
    · simp [opcodeIsData, h]
    · simp [opcodeIsControl, h]
  have hc1 : (opcodeIsControl (b0 &&& 15) && decide (125 < n)) = false := by
    rw [hb15]
    by_cases h8 : 8 ≤ o
    · simp [opcodeIsControl, h8]
      omega
    · simp [opcodeIsControl, h8]
  have hc2 : (opcodeIsControl (b0 &&& 15) && !(b0 &&& 128 != 0)) = false := by
    rw [hb15]
    by_cases h8 : 8 ≤ o
    · simp [opcodeIsControl, h8, (hctl h8).2]
    · simp [opcodeIsControl, h8]
  have g1 : ¬ (opcodeIsControl o = false ∧ opcodeIsData o = false) := by
    rcases hcls with h | h <;> simp [opcodeIsControl, opcodeIsData, h]
  have g2 : ¬ (opcodeIsControl o = true ∧ 125 < n) := by
    by_cases h8 : 8 ≤ o
    · have := (hctl h8).1
      simp [opcodeIsControl, h8]
      omega
    · simp [opcodeIsControl, h8]
  have g3 : ¬ (opcodeIsControl o = true ∧ b0 &&& 128 = 0) := by
    by_cases h8 : 8 ≤ o
    · have h := (hctl h8).2
      simp only [bne_iff_ne, ne_eq, decide_eq_true_eq] at h
      simp [opcodeIsControl, h8, h]
    · simp [opcodeIsControl, h8]
  unfold readFrame
  simp only [hop, hb64, hb32, hb16, hbm, hparse, hc1, hc2, hb15]
  simp [Nat.not_lt.mpr hmax, g1, g2, g3]

theorem readFrame_eval_masked (M : Nat) (b0 b1 : Nat) (s : List Nat)
    (o n k0 k1 k2 k3 : Nat) (s₃ : List Nat)
    (hb15 : b0 &&& 15 = o)
    (hb64 : b0 &&& 64 = 0) (hb32 : b0 &&& 32 = 0) (hb16 : b0 &&& 16 = 0)
    (hbm : b1 &&& 128 = 128)
    (hcls : o ≤ 2 ∨ 8 ≤ o)
    (hparse : parsePayloadLength s (b1 &&& 127) = .ok (n, k0 :: k1 :: k2 :: k3 :: s₃))
    (hmax : n ≤ M)
    (hctl : 8 ≤ o → n ≤ 125 ∧ (b0 &&& 128 != 0) = true) :
    readFrame M (b0 :: b1 :: s) =
      finishFrame (b0 &&& 128 != 0) false false false o true n (k0, k1, k2, k3) s₃ := by
  have hop : (!(opcodeIsControl (b0 &&& 15)) && !(opcodeIsData (b0 &&& 15))) = false := by
    rw [hb15]
    rcases hcls with h | h
    · simp [opcodeIsData, h]
    · simp [opcodeIsControl, h]
  have hc1 : (opcodeIsControl (b0 &&& 15) && decide (125 < n)) = false := by
    rw [hb15]
    by_cases h8 : 8 ≤ o
    · simp [opcodeIsControl, h8]
      omega
    · simp [opcodeIsControl, h8]
  have hc2 : (opcodeIsControl (b0 &&& 15) && !(b0 &&& 128 != 0)) = false := by
    rw [hb15]
    by_cases h8 : 8 ≤ o
    · simp [opcodeIsControl, h8, (hctl h8).2]
    · simp [opcodeIsControl, h8]
  have g1 : ¬ (opcodeIsControl o = false ∧ opcodeIsData o = false) := by
    rcases hcls with h | h <;> simp [opcodeIsControl, opcodeIsData, h]
  have g2 : ¬ (opcodeIsControl o = true ∧ 125 < n) := by
    by_cases h8 : 8 ≤ o
    · have := (hctl h8).1
      simp [opcodeIsControl, h8]
      omega
    · simp [opcodeIsControl, h8]
  have g3 : ¬ (opcodeIsControl o = true ∧ b0 &&& 128 = 0) := by
    by_cases h8 : 8 ≤ o
    · have h := (hctl h8).2
      simp only [bne_iff_ne, ne_eq, decide_eq_true_eq] at h
      simp [opcodeIsControl, h8, h]
    · simp [opcodeIsControl, h8]
  unfold readFrame
  simp only [hop, hb64, hb32, hb16, hbm, hparse, hc1, hc2, hb15]
  simp [Nat.not_lt.mpr hmax, g1, g2, g3]

theorem writeFrame_ok (f : Frame) (hv : frameValidate f = none)
    (hlen : f.payload.length = f.payloadLen) :
    writeFrame f = .ok ((firstByteOf f :: lengthOctets f ++
      (if f.masked then keyOctets f.maskingKey else [])) ++
      (if f.masked then unmaskPayload f.payload f.maskingKey else f.payload), f) := by
  unfold writeFrame
  rw [hv]
  by_cases hp : 0 < f.payload.length
  · simp [hp]
  · have hnil : f.payload = [] := List.eq_nil_of_length_eq_zero (by omega)
    simp [hp, hnil, unmaskPayload, unmaskFrom]

theorem parse_len_16 {n : Nat} (h : n < 65536) (t : List Nat) :
    parsePayloadLength ((n >>> 8) % 256 :: n % 256 :: t) 126 = .ok (n, t) :=
  congrArg (fun v => Except.ok (v, t)) (be16_val h)

theorem be64_val {n : Nat} (h : n < 18446744073709551616) :
    ((((((((((n >>> 56) % 256) <<< 56) ||| (((n >>> 48) % 256) <<< 48)) |||
        (((n >>> 40) % 256) <<< 40)) ||| (((n >>> 32) % 256) <<< 32)) |||
        (((n >>> 24) % 256) <<< 24)) ||| (((n >>> 16) % 256) <<< 16)) |||
        (((n >>> 8) % 256) <<< 8)) ||| (n % 256)) = n := by
  rw [be64_assemble (Nat.mod_lt _ (by norm_num)) (Nat.mod_lt _ (by norm_num))
    (Nat.mod_lt _ (by norm_num)) (Nat.mod_lt _ (by norm_num))
    (Nat.mod_lt _ (by norm_num)) (Nat.mod_lt _ (by norm_num))
    (Nat.mod_lt _ (by norm_num))]
  simp only [Nat.shiftRight_eq_div_pow]
  norm_num
  omega

theorem parse_len_64 {n : Nat} (h : n < 18446744073709551616) (t : List Nat) :
    parsePayloadLength ((n >>> 56) % 256 :: (n >>> 48) % 256 :: (n >>> 40) % 256 ::
      (n >>> 32) % 256 :: (n >>> 24) % 256 :: (n >>> 16) % 256 :: (n >>> 8) % 256 ::
      n % 256 :: t) 127 = .ok (n, t) :=
  congrArg (fun v => Except.ok (v, t)) (be64_val h)

/-- C1, Frame round-trip.  For every structurally valid frame (recognized
opcode, clear reserved bits, matching payload length within the codec's
limit and the `uint64` range, control frames short and unfragmented),
`WriteFrame` succeeds without touching the caller's frame, and `ReadFrame`
on the emitted octets consumes them entirely and returns a frame that
agrees field-wise and byte-wise on the payload (and on the masking key for
masked frames), for both masked and unmasked frames. -/
theorem claim_C1_frame_roundtrip (M : Nat) (f : Frame)
    (hop : isValidOpcode f.opcode = true)
    (h1 : f.rsv1 = false) (h2 : f.rsv2 = false) (h3 : f.rsv3 = false)
    (hlen : f.payload.length = f.payloadLen)
    (hmax : f.payloadLen ≤ M)
    (h64 : f.payloadLen < 18446744073709551616)
    (hctl : opcodeIsControl f.opcode = true → f.payloadLen ≤ 125 ∧ f.fin = true) :
    ∃ out, writeFrame f = .ok (out, f) ∧
      ∃ g, readFrame M out = .ok (g, []) ∧
        g.fin = f.fin ∧ g.rsv1 = f.rsv1 ∧ g.rsv2 = f.rsv2 ∧ g.rsv3 = f.rsv3 ∧
        g.opcode = f.opcode ∧ g.masked = f.masked ∧ g.payloadLen = f.payloadLen ∧
        g.payload = f.payload ∧ (f.masked = true → g.maskingKey = f.maskingKey) := by
  have ho6 : f.opcode = 0 ∨ f.opcode = 1 ∨ f.opcode = 2 ∨ f.opcode = 8 ∨
      f.opcode = 9 ∨ f.opcode = 10 := by
    have h := hop
    simp [isValidOpcode] at h
    tauto
  have ho16 : f.opcode < 16 := by rcases ho6 with h | h | h | h | h | h <;> omega
  have hcls : f.opcode ≤ 2 ∨ 8 ≤ f.opcode := by
    rcases ho6 with h | h | h | h | h | h <;> omega
  have hctl8 : 8 ≤ f.opcode → f.payloadLen ≤ 125 ∧ f.fin = true := fun h8 =>
    hctl (by simp [opcodeIsControl, h8])
  have hcA : (opcodeIsControl f.opcode && decide (125 < f.payloadLen)) = false := by
    by_cases h8 : 8 ≤ f.opcode
    · have := (hctl8 h8).1
      simp [opcodeIsControl, h8]
      omega
    · simp [opcodeIsControl, h8]
  have hcB : (opcodeIsControl f.opcode && !f.fin) = false := by
    by_cases h8 : 8 ≤ f.opcode
    · simp [opcodeIsControl, h8, (hctl8 h8).2]
    · simp [opcodeIsControl, h8]
  have hv : frameValidate f = none := by
    simp [frameValidate, hop, h1, h2, h3, hcA, hcB, hlen]
  have hw := writeFrame_ok f hv hlen
  obtain ⟨fb15, fbfin, fb64, fb32, fb16⟩ := fb_facts f ho16 h1 h2 h3
  have hctlE : 8 ≤ f.opcode → f.payloadLen ≤ 125 ∧ (firstByteOf f &&& 128 != 0) = true :=
    fun h8 => ⟨(hctl8 h8).1, by rw [fbfin]; exact (hctl8 h8).2⟩
  have hplm : (unmaskPayload f.payload f.maskingKey).length = f.payloadLen := by
    simp [unmaskPayload, unmaskFrom_length, hlen]
  rcases le_or_lt f.payloadLen 125 with hr | hr
  · cases hm : f.masked
    · -- 7-bit length, unmasked
      have hL : (firstByteOf f :: lengthOctets f ++
          (if f.masked then keyOctets f.maskingKey else [])) ++
          (if f.masked then unmaskPayload f.payload f.maskingKey else f.payload) =
          firstByteOf f :: f.payloadLen :: f.payload := by
        simp [lengthOctets, hm, hr, Nat.zero_or]
      rw [hL] at hw
      refine ⟨_, hw, ?_⟩
      have hsb := sb_unmasked_facts (n := f.payloadLen) (by omega)
      have hparse : parsePayloadLength f.payload (f.payloadLen &&& 127) =
          .ok (f.payloadLen, f.payload) := by
        rw [hsb.2]
        exact parse_len_direct _ hr
      have hread := readFrame_eval_unmasked M (firstByteOf f) f.payloadLen f.payload
        f.opcode f.payloadLen f.payload fb15 fb64 fb32 fb16 hsb.1 hcls hparse hmax hctlE
      rw [finishFrame_exact _ _ _ _ _ _ _ _ _ hlen] at hread
      refine ⟨_, hread, ?_, ?_, ?_, ?_, ?_, ?_, ?_, ?_, ?_⟩ <;>
        simp [fbfin, h1, h2, h3, hm]
    · -- 7-bit length, masked
      have hL : (firstByteOf f :: lengthOctets f ++
          (if f.masked then keyOctets f.maskingKey else [])) ++
          (if f.masked then unmaskPayload f.payload f.maskingKey else f.payload) =
          firstByteOf f :: (128 ||| f.payloadLen) :: f.maskingKey.1 :: f.maskingKey.2.1 ::
            f.maskingKey.2.2.1 :: f.maskingKey.2.2.2 ::
            unmaskPayload f.payload f.maskingKey := by
        simp [lengthOctets, hm, hr, Nat.zero_or, keyOctets]
      rw [hL] at hw
      refine ⟨_, hw, ?_⟩
      have hsb := sb_masked_facts (n := f.payloadLen) (by omega)
      have hparse : parsePayloadLength (f.maskingKey.1 :: f.maskingKey.2.1 ::
          f.maskingKey.2.2.1 :: f.maskingKey.2.2.2 :: unmaskPayload f.payload f.maskingKey)
          ((128 ||| f.payloadLen) &&& 127) =
          .ok (f.payloadLen, f.maskingKey.1 :: f.maskingKey.2.1 :: f.maskingKey.2.2.1 ::
            f.maskingKey.2.2.2 :: unmaskPayload f.payload f.maskingKey) := by
        rw [hsb.2]
        exact parse_len_direct _ hr
      have hread := readFrame_eval_masked M (firstByteOf f) (128 ||| f.payloadLen)
        (f.maskingKey.1 :: f.maskingKey.2.1 :: f.maskingKey.2.2.1 :: f.maskingKey.2.2.2 ::
          unmaskPayload f.payload f.maskingKey)
        f.opcode f.payloadLen f.maskingKey.1 f.maskingKey.2.1 f.maskingKey.2.2.1
        f.maskingKey.2.2.2 (unmaskPayload f.payload f.maskingKey)
        fb15 fb64 fb32 fb16 hsb.1 hcls hparse hmax hctlE
      rw [finishFrame_exact _ _ _ _ _ _ _ _ _ hplm] at hread
      refine ⟨_, hread, ?_, ?_, ?_, ?_, ?_, ?_, ?_, ?_, ?_⟩ <;>
        simp [fbfin, h1, h2, h3, hm, unmaskPayload, unmaskFrom_involution]
  · rcases le_or_lt f.payloadLen 65535 with hr2 | hr2
    · cases hm : f.masked
      · -- 16-bit length, unmasked
        have hL : (firstByteOf f :: lengthOctets f ++
            (if f.masked then keyOctets f.maskingKey else [])) ++
            (if f.masked then unmaskPayload f.payload f.maskingKey else f.payload) =
            firstByteOf f :: 126 :: (f.payloadLen >>> 8) % 256 :: f.payloadLen % 256 ::
              f.payload := by
          simp [lengthOctets, hm, putUint16, Nat.zero_or,
            (by omega : ¬ f.payloadLen ≤ 125), hr2]
          rw [if_neg (by omega)]
          rfl
        rw [hL] at hw
        refine ⟨_, hw, ?_⟩
        have hparse : parsePayloadLength ((f.payloadLen >>> 8) % 256 ::
            f.payloadLen % 256 :: f.payload) ((126:Nat) &&& 127) =
            .ok (f.payloadLen, f.payload) := by
          rw [(by decide : (126:Nat) &&& 127 = 126)]
          exact parse_len_16 (by omega) _
        have hread := readFrame_eval_unmasked M (firstByteOf f) 126
          ((f.payloadLen >>> 8) % 256 :: f.payloadLen % 256 :: f.payload)
          f.opcode f.payloadLen f.payload fb15 fb64 fb32 fb16
          (by decide) hcls hparse hmax hctlE
        rw [finishFrame_exact _ _ _ _ _ _ _ _ _ hlen] at hread
        refine ⟨_, hread, ?_, ?_, ?_, ?_, ?_, ?_, ?_, ?_, ?_⟩ <;>
          simp [fbfin, h1, h2, h3, hm]
      · -- 16-bit length, masked
        have hL : (firstByteOf f :: lengthOctets f ++
            (if f.masked then keyOctets f.maskingKey else [])) ++
            (if f.masked then unmaskPayload f.payload f.maskingKey else f.payload) =
            firstByteOf f :: 254 :: (f.payloadLen >>> 8) % 256 :: f.payloadLen % 256 ::
              f.maskingKey.1 :: f.maskingKey.2.1 :: f.maskingKey.2.2.1 ::
              f.maskingKey.2.2.2 :: unmaskPayload f.payload f.maskingKey := by
          simp [lengthOctets, hm, putUint16, Nat.zero_or, keyOctets,
            (by omega : ¬ f.payloadLen ≤ 125), hr2,
            (by decide : (128:Nat) ||| 126 = 254)]
          rw [if_neg (by omega)]
          rfl
        rw [hL] at hw
        refine ⟨_, hw, ?_⟩
        have hparse : parsePayloadLength ((f.payloadLen >>> 8) % 256 ::
            f.payloadLen % 256 :: f.maskingKey.1 :: f.maskingKey.2.1 ::
            f.maskingKey.2.2.1 :: f.maskingKey.2.2.2 ::
            unmaskPayload f.payload f.maskingKey) ((254:Nat) &&& 127) =
            .ok (f.payloadLen, f.maskingKey.1 :: f.maskingKey.2.1 :: f.maskingKey.2.2.1 ::
              f.maskingKey.2.2.2 :: unmaskPayload f.payload f.maskingKey) := by
          rw [(by decide : (254:Nat) &&& 127 = 126)]
          exact parse_len_16 (by omega) _
        have hread := readFrame_eval_masked M (firstByteOf f) 254
          ((f.payloadLen >>> 8) % 256 :: f.payloadLen % 256 :: f.maskingKey.1 ::
            f.maskingKey.2.1 :: f.maskingKey.2.2.1 :: f.maskingKey.2.2.2 ::
            unmaskPayload f.payload f.maskingKey)
          f.opcode f.payloadLen f.maskingKey.1 f.maskingKey.2.1 f.maskingKey.2.2.1
          f.maskingKey.2.2.2 (unmaskPayload f.payload f.maskingKey)
          fb15 fb64 fb32 fb16 (by decide) hcls hparse hmax hctlE
        rw [finishFrame_exact _ _ _ _ _ _ _ _ _ hplm] at hread
        refine ⟨_, hread, ?_, ?_, ?_, ?_, ?_, ?_, ?_, ?_, ?_⟩ <;>
          simp [fbfin, h1, h2, h3, hm, unmaskPayload, unmaskFrom_involution]
    · cases hm : f.masked
      · -- 64-bit length, unmasked
        have hL : (firstByteOf f :: lengthOctets f ++
            (if f.masked then keyOctets f.maskingKey else [])) ++
            (if f.masked then unmaskPayload f.payload f.maskingKey else f.payload) =
            firstByteOf f :: 127 :: (f.payloadLen >>> 56) % 256 ::
              (f.payloadLen >>> 48) % 256 :: (f.payloadLen >>> 40) % 256 ::
              (f.payloadLen >>> 32) % 256 :: (f.payloadLen >>> 24) % 256 ::
              (f.payloadLen >>> 16) % 256 :: (f.payloadLen >>> 8) % 256 ::
              f.payloadLen % 256 :: f.payload := by
          simp [lengthOctets, hm, putUint64, Nat.zero_or,
            (by omega : ¬ f.payloadLen ≤ 125), (by omega : ¬ f.payloadLen ≤ 65535)]
          rw [if_neg (by omega), if_neg (by omega)]
          rfl
        rw [hL] at hw
        refine ⟨_, hw, ?_⟩
        have hparse : parsePayloadLength ((f.payloadLen >>> 56) % 256 ::
            (f.payloadLen >>> 48) % 256 :: (f.payloadLen >>> 40) % 256 ::
            (f.payloadLen >>> 32) % 256 :: (f.payloadLen >>> 24) % 256 ::
            (f.payloadLen >>> 16) % 256 :: (f.payloadLen >>> 8) % 256 ::
            f.payloadLen % 256 :: f.payload) ((127:Nat) &&& 127) =
            .ok (f.payloadLen, f.payload) := by
          rw [(by decide : (127:Nat) &&& 127 = 127)]
          exact parse_len_64 h64 _
        have hread := readFrame_eval_unmasked M (firstByteOf f) 127
          ((f.payloadLen >>> 56) % 256 :: (f.payloadLen >>> 48) % 256 ::
            (f.payloadLen >>> 40) % 256 :: (f.payloadLen >>> 32) % 256 ::
            (f.payloadLen >>> 24) % 256 :: (f.payloadLen >>> 16) % 256 ::
            (f.payloadLen >>> 8) % 256 :: f.payloadLen % 256 :: f.payload)
          f.opcode f.payloadLen f.payload fb15 fb64 fb32 fb16
          (by decide) hcls hparse hmax hctlE
        rw [finishFrame_exact _ _ _ _ _ _ _ _ _ hlen] at hread
        refine ⟨_, hread, ?_, ?_, ?_, ?_, ?_, ?_, ?_, ?_, ?_⟩ <;>
          simp [fbfin, h1, h2, h3, hm]
      · -- 64-bit length, masked
        have hL : (firstByteOf f :: lengthOctets f ++
            (if f.masked then keyOctets f.maskingKey else [])) ++
            (if f.masked then unmaskPayload f.payload f.maskingKey else f.payload) =
            firstByteOf f :: 255 :: (f.payloadLen >>> 56) % 256 ::
              (f.payloadLen >>> 48) % 256 :: (f.payloadLen >>> 40) % 256 ::
              (f.payloadLen >>> 32) % 256 :: (f.payloadLen >>> 24) % 256 ::
              (f.payloadLen >>> 16) % 256 :: (f.payloadLen >>> 8) % 256 ::
              f.payloadLen % 256 :: f.maskingKey.1 :: f.maskingKey.2.1 ::
              f.maskingKey.2.2.1 :: f.maskingKey.2.2.2 ::
              unmaskPayload f.payload f.maskingKey := by
          simp [lengthOctets, hm, putUint64, Nat.zero_or, keyOctets,
            (by omega : ¬ f.payloadLen ≤ 125), (by omega : ¬ f.payloadLen ≤ 65535),
            (by decide : (128:Nat) ||| 127 = 255)]
          rw [if_neg (by omega), if_neg (by omega)]
          rfl
        rw [hL] at hw
        refine ⟨_, hw, ?_⟩
        have hparse : parsePayloadLength ((f.payloadLen >>> 56) % 256 ::
            (f.payloadLen >>> 48) % 256 :: (f.payloadLen >>> 40) % 256 ::
            (f.payloadLen >>> 32) % 256 :: (f.payloadLen >>> 24) % 256 ::
            (f.payloadLen >>> 16) % 256 :: (f.payloadLen >>> 8) % 256 ::
            f.payloadLen % 256 :: f.maskingKey.1 :: f.maskingKey.2.1 ::
            f.maskingKey.2.2.1 :: f.maskingKey.2.2.2 ::
            unmaskPayload f.payload f.maskingKey) ((255:Nat) &&& 127) =
            .ok (f.payloadLen, f.maskingKey.1 :: f.maskingKey.2.1 :: f.maskingKey.2.2.1 ::
              f.maskingKey.2.2.2 :: unmaskPayload f.payload f.maskingKey) := by
          rw [(by decide : (255:Nat) &&& 127 = 127)]
          exact parse_len_64 h64 _
        have hread := readFrame_eval_masked M (firstByteOf f) 255
          ((f.payloadLen >>> 56) % 256 :: (f.payloadLen >>> 48) % 256 ::
            (f.payloadLen >>> 40) % 256 :: (f.payloadLen >>> 32) % 256 ::
            (f.payloadLen >>> 24) % 256 :: (f.payloadLen >>> 16) % 256 ::
            (f.payloadLen >>> 8) % 256 :: f.payloadLen % 256 :: f.maskingKey.1 ::
            f.maskingKey.2.1 :: f.maskingKey.2.2.1 :: f.maskingKey.2.2.2 ::
            unmaskPayload f.payload f.maskingKey)
          f.opcode f.payloadLen f.maskingKey.1 f.maskingKey.2.1 f.maskingKey.2.2.1
          f.maskingKey.2.2.2 (unmaskPayload f.payload f.maskingKey)
          fb15 fb64 fb32 fb16 (by decide) hcls hparse hmax hctlE
        rw [finishFrame_exact _ _ _ _ _ _ _ _ _ hplm] at hread
        refine ⟨_, hread, ?_, ?_, ?_, ?_, ?_, ?_, ?_, ?_, ?_⟩ <;>
          simp [fbfin, h1, h2, h3, hm, unmaskPayload, unmaskFrom_involution]

/-- Adding unread octets after a stream on which the length parse already
succeeded does not change the parse; only the parsed octets are consumed. -/
theorem parsePayloadLength_append {s t s₂ : List Nat} {i L : Nat}
    (h : parsePayloadLength s i = .ok (L, s₂)) :
    parsePayloadLength (s ++ t) i = .ok (L, s₂ ++ t) := by
  unfold parsePayloadLength at h ⊢
  by_cases h126 : i = 126
  · rw [if_pos h126] at h ⊢
    rcases s with _ | ⟨a, s⟩
    · exact absurd h (by simp)
    rcases s with _ | ⟨b, s⟩
    · exact absurd h (by simp)
    simp only [List.cons_append] at h ⊢
    obtain ⟨hL, hs⟩ : (a <<< 8) ||| b = L ∧ s = s₂ := by simpa using h
    subst hL
    subst hs
    rfl
  · rw [if_neg h126] at h ⊢
    by_cases h127 : i = 127
    · rw [if_pos h127] at h ⊢
      rcases s with _ | ⟨a1, s⟩
      · exact absurd h (by simp)
      rcases s with _ | ⟨a2, s⟩
      · exact absurd h (by simp)
      rcases s with _ | ⟨a3, s⟩
      · exact absurd h (by simp)
      rcases s with _ | ⟨a4, s⟩
      · exact absurd h (by simp)
      rcases s with _ | ⟨a5, s⟩
      · exact absurd h (by simp)
      rcases s with _ | ⟨a6, s⟩
      · exact absurd h (by simp)
      rcases s with _ | ⟨a7, s⟩
      · exact absurd h (by simp)
      rcases s with _ | ⟨a8, s⟩
      · exact absurd h (by simp)
      simp only [List.cons_append] at h ⊢
      obtain ⟨hL, hs⟩ : ((((((((a1 <<< 56) ||| (a2 <<< 48)) ||| (a3 <<< 40)) |||
          (a4 <<< 32)) ||| (a5 <<< 24)) ||| (a6 <<< 16)) ||| (a7 <<< 8)) ||| a8) = L ∧
          s = s₂ := by simpa using h
      subst hL
      subst hs
      rfl
    · rw [if_neg h127] at h ⊢
      obtain ⟨hL, hs⟩ : i = L ∧ s = s₂ := by simpa using h
      subst hL
      subst hs
      rfl

/-- C4, Payload size enforcement.  A parser built with limit 0 stores the
1 MiB default.  For any stream whose header passes the opcode and
reserved-bit checks and declares a payload length above the stored limit,
`ReadFrame` fails with `PayloadTooLarge`, and the result is the same for
every continuation of the stream beyond the length octets -- no masking-key
or payload octet is consumed. -/
theorem claim_C4_size_enforcement (M₀ b0 b1 : Nat) (ext : List Nat) (L : Nat)
    (hcls : b0 &&& 15 ≤ 2 ∨ 8 ≤ b0 &&& 15)
    (hb64 : b0 &&& 64 = 0) (hb32 : b0 &&& 32 = 0) (hb16 : b0 &&& 16 = 0)
    (hparse : parsePayloadLength ext (b1 &&& 127) = .ok (L, []))
    (hbig : newFrameParser M₀ < L) :
    newFrameParser 0 = 1048576 ∧
    ∀ extra, readFrame (newFrameParser M₀) (b0 :: b1 :: (ext ++ extra)) =
      .error .payloadTooLarge := by
  refine ⟨rfl, fun extra => ?_⟩
  have hp := parsePayloadLength_append (t := extra) hparse
  simp only [List.nil_append] at hp
  have hop : (!(opcodeIsControl (b0 &&& 15)) && !(opcodeIsData (b0 &&& 15))) = false := by
    rcases hcls with h | h
    · simp [opcodeIsData, h]
    · simp [opcodeIsControl, h]
  have g1 : ¬ (opcodeIsControl (b0 &&& 15) = false ∧ opcodeIsData (b0 &&& 15) = false) := by
    rcases hcls with h | h
    · simp [opcodeIsData, h]
    · simp [opcodeIsControl, h]
  unfold readFrame
  simp only [hop, hb64, hb32, hb16, hp]
  simp [hbig, g1]

/-- C5 counterexample.  The octets `0x8B 0x00` declare opcode `0xB`, which
the claim's recognized set excludes, yet `ReadFrame` accepts the frame:
the code's opcode test (`IsControl || IsData`) admits every opcode of the
form `0x8..0xF`. -/
theorem claim_C5_counterexample :
    readFrame 1048576 [139, 0] =
      .ok (⟨true, false, false, false, 11, false, 0, (0, 0, 0, 0), []⟩, []) := by
  rfl

/-- C5 as amended.  On the read path the first-violated rule wins in the
order opcode, reserved bits, size limit, control-frame shape, with the
error kinds the claim names -- except that the opcode check accepts
`{0x0,0x1,0x2} ∪ {0x8..0xF}` and `InvalidOpcode` is returned exactly for
opcodes `0x3..0x7`. -/
theorem claim_C5_read_error_order (M b0 b1 : Nat) (s : List Nat) :
    (¬ (b0 &&& 15 ≤ 2 ∨ 8 ≤ b0 &&& 15) →
      readFrame M (b0 :: b1 :: s) = .error .invalidOpcode) ∧
    ((b0 &&& 15 ≤ 2 ∨ 8 ≤ b0 &&& 15) →
      ¬ (b0 &&& 64 = 0 ∧ b0 &&& 32 = 0 ∧ b0 &&& 16 = 0) →
      readFrame M (b0 :: b1 :: s) = .error .reservedBitsSet) ∧
    (∀ L s₂, (b0 &&& 15 ≤ 2 ∨ 8 ≤ b0 &&& 15) →
      b0 &&& 64 = 0 → b0 &&& 32 = 0 → b0 &&& 16 = 0 →
      parsePayloadLength s (b1 &&& 127) = .ok (L, s₂) → M < L →
      readFrame M (b0 :: b1 :: s) = .error .payloadTooLarge) ∧
    (∀ L s₂, (b0 &&& 15 ≤ 2 ∨ 8 ≤ b0 &&& 15) →
      b0 &&& 64 = 0 → b0 &&& 32 = 0 → b0 &&& 16 = 0 →
      parsePayloadLength s (b1 &&& 127) = .ok (L, s₂) → L ≤ M →
      8 ≤ b0 &&& 15 → (125 < L ∨ b0 &&& 128 = 0) →
      readFrame M (b0 :: b1 :: s) = .error .invalidFrameStructure) := by
  refine ⟨?_, ?_, ?_, ?_⟩
  · intro hbad
    have h1 : ¬ b0 &&& 15 ≤ 2 := fun h => hbad (Or.inl h)
    have h2 : ¬ 8 ≤ b0 &&& 15 := fun h => hbad (Or.inr h)
    unfold readFrame
    simp [opcodeIsControl, opcodeIsData, h1, h2]
  · intro hcls hrsv
    have hop : (!(opcodeIsControl (b0 &&& 15)) && !(opcodeIsData (b0 &&& 15))) = false := by
      rcases hcls with h | h
      · simp [opcodeIsData, h]
      · simp [opcodeIsControl, h]
    have g1 : ¬ (opcodeIsControl (b0 &&& 15) = false ∧ opcodeIsData (b0 &&& 15) = false) := by
      rcases hcls with h | h
      · simp [opcodeIsData, h]
      · simp [opcodeIsControl, h]
    have hne : ¬ (b0 &&& 64 = 0) ∨ ¬ (b0 &&& 32 = 0) ∨ ¬ (b0 &&& 16 = 0) := by
      tauto
    unfold readFrame
    rcases hne with h | h | h <;> simp [g1, h]
  · intro L s₂ hcls hb64 hb32 hb16 hparse hbig
    have hop : (!(opcodeIsControl (b0 &&& 15)) && !(opcodeIsData (b0 &&& 15))) = false := by
      rcases hcls with h | h
      · simp [opcodeIsData, h]
      · simp [opcodeIsControl, h]
    have g1 : ¬ (opcodeIsControl (b0 &&& 15) = false ∧ opcodeIsData (b0 &&& 15) = false) := by
      rcases hcls with h | h
      · simp [opcodeIsData, h]
      · simp [opcodeIsControl, h]
    unfold readFrame
    simp only [hop, hb64, hb32, hb16, hparse]
    simp [hbig, g1]
  · intro L s₂ hcls hb64 hb32 hb16 hparse hsz h8 hshape
    have g1 : ¬ (opcodeIsControl (b0 &&& 15) = false ∧ opcodeIsData (b0 &&& 15) = false) := by
      simp [opcodeIsControl, h8]
    have hctrl : opcodeIsControl (b0 &&& 15) = true := by simp [opcodeIsControl, h8]
    unfold readFrame
    simp only [hb64, hb32, hb16, hparse]
    by_cases h125 : 125 < L
    · simp [g1, hctrl, h125, Nat.not_lt.mpr hsz]
    · rcases hshape with h | hfin
      · exact absurd h h125
      · simp [g1, hctrl, h125, hfin, Nat.not_lt.mpr hsz]

/-- Inversion of a successful `WriteFrame`: validation passed (so the
payload length matches), the caller's frame is returned untouched and the
emitted octets have the header/key/payload shape. -/
theorem writeFrame_ok_inv {f : Frame} {out : List Nat} {fr : Frame}
    (hw : writeFrame f = .ok (out, fr)) :
    frameValidate f = none ∧ f.payload.length = f.payloadLen ∧ fr = f ∧
    out = (firstByteOf f :: lengthOctets f ++
      (if f.masked then keyOctets f.maskingKey else [])) ++
      (if f.masked then unmaskPayload f.payload f.maskingKey else f.payload) := by
  have hv : frameValidate f = none := by
    cases hfv : frameValidate f with
    | none => rfl
    | some e =>
        unfold writeFrame at hw
        rw [hfv] at hw
        cases hw
  have hlen : f.payload.length = f.payloadLen := by
    by_contra hne
    unfold frameValidate at hv
    split_ifs at hv
    simp_all
  have hw' := writeFrame_ok f hv hlen
  rw [hw'] at hw
  obtain ⟨ho, hf⟩ : ((firstByteOf f :: lengthOctets f ++
      (if f.masked then keyOctets f.maskingKey else [])) ++
      (if f.masked then unmaskPayload f.payload f.maskingKey else f.payload) = out ∧
      f = fr) := by
    simpa using hw
  exact ⟨hv, hlen, hf.symm, ho.symm⟩

/-- C8, Encode does not mutate the payload.  For a masked frame the emitted
octets are the header, the key and the XOR-masked transform of the caller's
payload (the source masks a fresh copy, frame_parser.go lines 204-207), the
caller's frame comes back unchanged, and applying the mask transform again
recovers the payload byte for byte. -/
theorem claim_C8_write_mask_copy (f : Frame) (out : List Nat) (fr : Frame)
    (hm : f.masked = true) (hw : writeFrame f = .ok (out, fr)) :
    out = firstByteOf f :: lengthOctets f ++ keyOctets f.maskingKey ++
      unmaskPayload f.payload f.maskingKey ∧
    fr = f ∧
    unmaskPayload (unmaskPayload f.payload f.maskingKey) f.maskingKey = f.payload := by
  obtain ⟨hv, hlen, hfr, hout⟩ := writeFrame_ok_inv hw
  refine ⟨?_, hfr, unmaskFrom_involution f.maskingKey 0 f.payload⟩
  rw [hout, hm]
  simp

/-- C7, Length-encoding minimality.  On write the length field takes one
octet for lengths up to 125 (the low seven bits of the second octet), a 126
marker plus two big-endian octets up to 65535, and a 127 marker plus eight
big-endian octets beyond; on read all three encodings are accepted for any
encoded value, and the decoded value is returned as the payload length. -/
theorem claim_C7_length_encoding (f : Frame) (out : List Nat) (fr : Frame)
    (hw : writeFrame f = .ok (out, fr)) :
    (f.payloadLen ≤ 125 →
      out.length = 2 + (if f.masked then 4 else 0) + f.payload.length ∧
      out.getD 1 0 % 128 = f.payloadLen) ∧
    (126 ≤ f.payloadLen → f.payloadLen ≤ 65535 →
      out.length = 4 + (if f.masked then 4 else 0) + f.payload.length ∧
      out.getD 1 0 % 128 = 126 ∧
      out.getD 2 0 * 256 + out.getD 3 0 = f.payloadLen) ∧
    (65535 < f.payloadLen →
      out.length = 10 + (if f.masked then 4 else 0) + f.payload.length ∧
      out.getD 1 0 % 128 = 127 ∧
      ((((((out.getD 2 0 * 256 + out.getD 3 0) * 256 + out.getD 4 0) * 256 +
        out.getD 5 0) * 256 + out.getD 6 0) * 256 + out.getD 7 0) * 256 +
        out.getD 8 0) * 256 + out.getD 9 0 = f.payloadLen % 18446744073709551616) ∧
    (∀ n s, n ≤ 125 → parsePayloadLength s n = .ok (n, s)) ∧
    (∀ c0 c1 s, c1 < 256 →
      parsePayloadLength (c0 :: c1 :: s) 126 = .ok (c0 * 256 + c1, s)) ∧
    (∀ c0 c1 c2 c3 c4 c5 c6 c7 s, c1 < 256 → c2 < 256 → c3 < 256 → c4 < 256 →
      c5 < 256 → c6 < 256 → c7 < 256 →
      parsePayloadLength (c0 :: c1 :: c2 :: c3 :: c4 :: c5 :: c6 :: c7 :: s) 127 =
        .ok (((((((c0 * 256 + c1) * 256 + c2) * 256 + c3) * 256 + c4) * 256 + c5) * 256 +
          c6) * 256 + c7, s)) := by
  obtain ⟨hv, hlen, hfr, hout⟩ := writeFrame_ok_inv hw
  refine ⟨?_, ?_, ?_, ?_, ?_, ?_⟩
  · intro hr
    subst hout
    cases hm : f.masked
    · have hLO : lengthOctets f = [f.payloadLen] := by
        simp [lengthOctets, hm, hr, Nat.zero_or]
      rw [hLO]
      refine ⟨by simp [hm, hlen]; omega, ?_⟩
      simp [hm]
      omega
    · have hLO : lengthOctets f = [128 ||| f.payloadLen] := by
        simp [lengthOctets, hm, hr, Nat.zero_or]
      rw [hLO]
      refine ⟨by simp [hm, keyOctets, unmaskPayload, unmaskFrom_length, hlen]; omega, ?_⟩
      have hadd : (128 : Nat) ||| f.payloadLen = 128 + f.payloadLen :=
        lor_128_add (by omega)
      have hadd2 : f.payloadLen ||| 128 = 128 + f.payloadLen := by
        rw [Nat.lor_comm]
        exact hadd
      simp [hm, hadd, hadd2]
      omega
  · intro hr1 hr2
    subst hout
    cases hm : f.masked
    · have hLO : lengthOctets f =
          [126, (f.payloadLen >>> 8) % 256, f.payloadLen % 256] := by
        unfold lengthOctets
        rw [if_neg (by omega), if_pos (by omega)]
        simp [putUint16, hm, Nat.zero_or]
      rw [hLO]
      refine ⟨by simp [hm, hlen]; omega, by simp [hm], ?_⟩
      simp [hm]
      rw [Nat.shiftRight_eq_div_pow]
      norm_num
      omega
    · have hLO : lengthOctets f =
          [254, (f.payloadLen >>> 8) % 256, f.payloadLen % 256] := by
        unfold lengthOctets
        rw [if_neg (by omega), if_pos (by omega)]
        simp [putUint16, hm, Nat.zero_or, (by decide : (128:Nat) ||| 126 = 254)]
      rw [hLO]
      refine ⟨by simp [hm, keyOctets, unmaskPayload, unmaskFrom_length, hlen]; omega,
        by simp [hm], ?_⟩
      simp [hm]
      rw [Nat.shiftRight_eq_div_pow]
      norm_num
      omega
  · intro hr1
    subst hout
    cases hm : f.masked
    · have hLO : lengthOctets f =
          [127, (f.payloadLen >>> 56) % 256, (f.payloadLen >>> 48) % 256,
           (f.payloadLen >>> 40) % 256, (f.payloadLen >>> 32) % 256,
           (f.payloadLen >>> 24) % 256, (f.payloadLen >>> 16) % 256,
           (f.payloadLen >>> 8) % 256, f.payloadLen % 256] := by
        unfold lengthOctets
        rw [if_neg (by omega), if_neg (by omega)]
        simp [putUint64, hm, Nat.zero_or]
      rw [hLO]
      refine ⟨by simp [hm, hlen]; omega, by simp [hm], ?_⟩
      simp [hm]
      simp only [Nat.shiftRight_eq_div_pow]
      norm_num
      omega
    · have hLO : lengthOctets f =
          [255, (f.payloadLen >>> 56) % 256, (f.payloadLen >>> 48) % 256,
           (f.payloadLen >>> 40) % 256, (f.payloadLen >>> 32) % 256,
           (f.payloadLen >>> 24) % 256, (f.payloadLen >>> 16) % 256,
           (f.payloadLen >>> 8) % 256, f.payloadLen % 256] := by
        unfold lengthOctets
        rw [if_neg (by omega), if_neg (by omega)]
        simp [putUint64, hm, Nat.zero_or, (by decide : (128:Nat) ||| 127 = 255)]
      rw [hLO]
      refine ⟨by simp [hm, keyOctets, unmaskPayload, unmaskFrom_length, hlen]; omega,
        by simp [hm], ?_⟩
      simp [hm]
      simp only [Nat.shiftRight_eq_div_pow]
      norm_num
      omega
  · exact fun n s hn => parse_len_direct s hn
  · intro c0 c1 s hc1
    have hval : (c0 <<< 8) ||| c1 = c0 * 256 + c1 := by
      rw [Nat.shiftLeft_eq]
      have h := lor_eq_add (a := c0) (k := 8) (b := c1) (by norm_num; omega)
      norm_num at h ⊢
      exact h
    exact congrArg (fun v => Except.ok (v, s)) hval
  · intro c0 c1 c2 c3 c4 c5 c6 c7 s hc1 hc2 hc3 hc4 hc5 hc6 hc7
    exact congrArg (fun v => Except.ok (v, s))
      (be64_assemble hc1 hc2 hc3 hc4 hc5 hc6 hc7)

theorem claim_C1_frame_roundtrip_witness :
    isValidOpcode (1 : Nat) = true ∧
    ∃ out, writeFrame ⟨true, false, false, false, 1, true, 5, (55, 250, 33, 61),
        [72, 101, 108, 108, 111]⟩ = .ok (out, ⟨true, false, false, false, 1, true, 5,
        (55, 250, 33, 61), [72, 101, 108, 108, 111]⟩) ∧
      ∃ g, readFrame 1048576 out = .ok (g, []) ∧
        g.fin = true ∧ g.rsv1 = false ∧ g.rsv2 = false ∧ g.rsv3 = false ∧
        g.opcode = 1 ∧ g.masked = true ∧ g.payloadLen = 5 ∧
        g.payload = [72, 101, 108, 108, 111] ∧
        (true = true → g.maskingKey = (55, 250, 33, 61)) :=
  ⟨by decide, claim_C1_frame_roundtrip 1048576
    ⟨true, false, false, false, 1, true, 5, (55, 250, 33, 61), [72, 101, 108, 108, 111]⟩
    (by decide) rfl rfl rfl (by decide) (by decide) (by decide) (by decide)⟩

theorem claim_C4_size_enforcement_witness :
    newFrameParser 0 = 1048576 ∧
    readFrame (newFrameParser 1) (129 :: 2 :: ([] ++ [9, 9])) =
      .error .payloadTooLarge :=
  ⟨(claim_C4_size_enforcement 1 129 2 [] 2 (by decide) (by decide) (by decide)
      (by decide) rfl (by decide)).1,
   (claim_C4_size_enforcement 1 129 2 [] 2 (by decide) (by decide) (by decide)
      (by decide) rfl (by decide)).2 [9, 9]⟩

theorem claim_C5_read_error_order_witness :
    readFrame 100 (131 :: 0 :: []) = .error .invalidOpcode :=
  (claim_C5_read_error_order 100 131 0 []).1 (by decide)

theorem claim_C7_length_encoding_witness :
    126 ≤ 200 ∧
    ((130 :: 126 :: 0 :: 200 :: List.replicate 200 0 : List Nat).length =
        4 + (if (false : Bool) then 4 else 0) + (List.replicate 200 (0 : Nat)).length ∧
      (130 :: 126 :: 0 :: 200 :: List.replicate 200 0 : List Nat).getD 1 0 % 128 = 126 ∧
      (130 :: 126 :: 0 :: 200 :: List.replicate 200 0 : List Nat).getD 2 0 * 256 +
        (130 :: 126 :: 0 :: 200 :: List.replicate 200 0 : List Nat).getD 3 0 = 200) :=
  ⟨by decide,
   (claim_C7_length_encoding
      ⟨true, false, false, false, 2, false, 200, (0, 0, 0, 0), List.replicate 200 0⟩
      (130 :: 126 :: 0 :: 200 :: List.replicate 200 0)
      ⟨true, false, false, false, 2, false, 200, (0, 0, 0, 0), List.replicate 200 0⟩
      (by rfl)).2.1 (by decide) (by decide)⟩

theorem claim_C8_write_mask_copy_witness :
    ([129, 133, 55, 250, 33, 61, 127, 159, 77, 81, 88] : List Nat) =
      firstByteOf ⟨true, false, false, false, 1, true, 5, (55, 250, 33, 61),
        [72, 101, 108, 108, 111]⟩ ::
      lengthOctets ⟨true, false, false, false, 1, true, 5, (55, 250, 33, 61),
        [72, 101, 108, 108, 111]⟩ ++
      keyOctets (55, 250, 33, 61) ++
      unmaskPayload [72, 101, 108, 108, 111] (55, 250, 33, 61) ∧
    (⟨true, false, false, false, 1, true, 5, (55, 250, 33, 61),
        [72, 101, 108, 108, 111]⟩ : Frame) =
      ⟨true, false, false, false, 1, true, 5, (55, 250, 33, 61),
        [72, 101, 108, 108, 111]⟩ ∧
    unmaskPayload (unmaskPayload [72, 101, 108, 108, 111] (55, 250, 33, 61))
      (55, 250, 33, 61) = [72, 101, 108, 108, 111] :=
  claim_C8_write_mask_copy
    ⟨true, false, false, false, 1, true, 5, (55, 250, 33, 61), [72, 101, 108, 108, 111]⟩
    [129, 133, 55, 250, 33, 61, 127, 159, 77, 81, 88]
    ⟨true, false, false, false, 1, true, 5, (55, 250, 33, 61), [72, 101, 108, 108, 111]⟩
    rfl (by rfl)

/-- C3, Connection state machine.  `TransitionTo` succeeds and installs the
new state exactly on the five permitted pairs; every other pair -- all
self-loops and everything out of `Closed` included -- fails with
`InvalidState` and leaves the connection untouched; a new connection starts
in `Connecting`. -/
theorem claim_C3_state_machine (c : Connection) (t : ConnectionState) :
    ((c.state = .stateConnecting ∧ (t = .stateOpen ∨ t = .stateClosed)) ∨
     (c.state = .stateOpen ∧ (t = .stateClosing ∨ t = .stateClosed)) ∨
     (c.state = .stateClosing ∧ t = .stateClosed) →
      transitionTo c t = (none, { c with state := t })) ∧
    (¬ ((c.state = .stateConnecting ∧ (t = .stateOpen ∨ t = .stateClosed)) ∨
     (c.state = .stateOpen ∧ (t = .stateClosing ∨ t = .stateClosed)) ∨
     (c.state = .stateClosing ∧ t = .stateClosed)) →
      transitionTo c t = (some .invalidState, c)) ∧
    (∀ id addr now, (newConnection id addr now).state = .stateConnecting) := by
  refine ⟨?_, ?_, fun id addr now => rfl⟩ <;>
    · intro h
      cases hs : c.state <;> cases t <;>
        simp [transitionTo, canTransitionTo, hs] <;> simp_all

theorem claim_C3_state_machine_witness :
    ((Connection.mk "c1" "1.2.3.4:5678" .stateConnecting 0 []).state = .stateConnecting ∧
      ((ConnectionState.stateOpen = .stateOpen ∨ (ConnectionState.stateOpen = .stateClosed)))) ∧
    transitionTo (Connection.mk "c1" "1.2.3.4:5678" .stateConnecting 0 []) .stateOpen =
      (none, { Connection.mk "c1" "1.2.3.4:5678" .stateConnecting 0 [] with
        state := .stateOpen }) :=
  ⟨⟨rfl, Or.inl rfl⟩,
   (claim_C3_state_machine (Connection.mk "c1" "1.2.3.4:5678" .stateConnecting 0 [])
      .stateOpen).1 (Or.inl ⟨rfl, Or.inl rfl⟩)⟩

/-- C9 counterexample.  On a `Closed` connection `UpdateActivity` is not a
no-op: it stamps `lastActivity` with the current time (connection.go line
84 has no state guard), so the connection changes. -/
theorem claim_C9_counterexample :
    updateActivity ⟨"c1", "1.2.3.4:5678", .stateClosed, 0, []⟩ 1 ≠
      ⟨"c1", "1.2.3.4:5678", .stateClosed, 0, []⟩ := by
  decide

/-- C9 as amended.  `UpdateActivity` sets `lastActivity` to the current
time and changes no other field, in every state -- including `Closed`,
where the call is not rejected but does stamp the timestamp. -/
theorem claim_C9_update_activity (c : Connection) (now : Nat) :
    updateActivity c now = { c with lastActivity := now } ∧
    (updateActivity c now).id = c.id ∧
    (updateActivity c now).remoteAddr = c.remoteAddr ∧
    (updateActivity c now).state = c.state ∧
    (updateActivity c now).metadata = c.metadata ∧
    (updateActivity c now).lastActivity = now := by
  simp [updateActivity]

/-- C10, implicit totality of `ToOpcode`.  For every `Message` value -- the
tag being any Go `int`, including tags `Validate` rejects -- `ToOpcode`
returns an opcode: `0x1` for Text (tag 0) and `0x2` for every other tag,
Binary (tag 1) and all invalid tags alike. -/
theorem claim_C10_to_opcode_total (m : Message) :
    (m.type = 0 → toOpcode m = 0x1) ∧
    (m.type ≠ 0 → toOpcode m = 0x2) ∧
    (m.type ≠ 0 → m.type ≠ 1 → messageValidate m = some .invalidMessageType) := by
  refine ⟨fun h => by simp [toOpcode, h], fun h => ?_, fun h h1 => ?_⟩
  · unfold toOpcode
    rw [if_neg h]
    split_ifs <;> rfl
  · simp [messageValidate, h, h1]

theorem claim_C10_to_opcode_total_witness :
    ((99 : Int) ≠ 0 ∧ toOpcode ⟨99, []⟩ = 0x2) ∧
    messageValidate ⟨99, []⟩ = some .invalidMessageType :=
  ⟨⟨by decide, (claim_C10_to_opcode_total ⟨99, []⟩).2.1 (by decide)⟩,
   (claim_C10_to_opcode_total ⟨99, []⟩).2.2 (by decide) (by decide)⟩

/-- C6, Handshake validation completeness.  Validation succeeds exactly when
the Upgrade header equals "websocket" case-insensitively, the Connection
header split on commas and trimmed contains an "Upgrade" token
case-insensitively, the key is non-empty, and the version is "13"; the
first failing check in source order is the one reported. -/
theorem claim_C6_handshake_validation (u c k v : String) :
    (validateRequest u c k v = none ↔
      (equalFold u ("websocket") = true ∧
       (∃ t ∈ splitComma c, equalFold (trimSpace t) ("Upgrade") = true) ∧
       k ≠ "" ∧ v = "13")) ∧
    (equalFold u ("websocket") = false → validateRequest u c k v = some .badUpgrade) ∧
    (equalFold u ("websocket") = true → containsToken c ("Upgrade") = false →
      validateRequest u c k v = some .badConnection) ∧
    (equalFold u ("websocket") = true → containsToken c ("Upgrade") = true → k = "" →
      validateRequest u c k v = some .missingKey) ∧
    (equalFold u ("websocket") = true → containsToken c ("Upgrade") = true → k ≠ "" →
      v ≠ "13" → validateRequest u c k v = some .badVersion) := by
  refine ⟨?_, ?_, ?_, ?_, ?_⟩
  · unfold validateRequest
    split_ifs with h1 h2 h3 h4 <;>
      simp_all [containsToken, List.any_eq_true]
  · intro h
    simp [validateRequest, h]
  · intro h1 h2
    simp [validateRequest, h1, h2]
  · intro h1 h2 h3
    simp [validateRequest, h1, h2, h3]
  · intro h1 h2 h3 h4
    simp [validateRequest, h1, h2, h3, h4]

theorem claim_C6_handshake_validation_witness :
    validateRequest ("WebSocket") ("keep-alive, Upgrade") ("abc") ("13") = none ∧
    validateRequest ("http") ("Upgrade") ("abc") ("13") = some .badUpgrade :=
  ⟨((claim_C6_handshake_validation ("WebSocket") ("keep-alive, Upgrade") ("abc")
      ("13")).1).mpr (by decide),
   (claim_C6_handshake_validation ("http") ("Upgrade") ("abc") ("13")).2.1 (by decide)⟩

/-! ## Accept-key theorems -/

theorem sha1_length (msg : List Nat) : (sha1 msg).length = 20 := by
  rcases hq : sha1Chunks ((sha1Pad msg).length / 64) (sha1Pad msg)
      (1732584193, 4023233417, 2562383102, 271733878, 3285377520) with ⟨a, b, c, d, e⟩
  simp [sha1, hq, be32]

theorem base64Core_length : ∀ bs : List Nat,
    (base64Core bs).length = 4 * ((bs.length + 2) / 3)
  | [] => by simp [base64Core]
  | [b0] => by simp [base64Core]
  | [b0, b1] => by simp [base64Core]
  | b0 :: b1 :: b2 :: rest => by
      have ih := base64Core_length rest
      simp [base64Core, ih]
      omega

theorem generateAcceptKey_length (k : String) : (generateAcceptKey k).length = 28 := by
  show (String.mk (base64Core (sha1 (utf8Bytes (k ++ webSocketGUID))))).length = 28
  simp [String.length, base64Core_length, sha1_length]

/-- C2, Accept-key derivation.  `GenerateAcceptKey` is the standard base64
encoding of the SHA-1 digest of the key concatenated with the RFC 6455
GUID; the result is always exactly 28 characters; equal inputs yield equal
outputs; and the RFC 6455 section 1.3 vector maps
`dGhlIHNhbXBsZSBub25jZQ==` to `s3pPLMBiTxaQ9kYGzzhZRbK+xOo=`. -/
theorem claim_C2_accept_key (k₁ k₂ : String) (hk : k₁ = k₂) :
    generateAcceptKey k₁ = base64Encode (sha1 (utf8Bytes (k₁ ++ webSocketGUID))) ∧
    (generateAcceptKey k₁).length = 28 ∧
    generateAcceptKey k₁ = generateAcceptKey k₂ ∧
    generateAcceptKey ("dGhlIHNhbXBsZSBub25jZQ==") = ("s3pPLMBiTxaQ9kYGzzhZRbK+xOo=") :=
  ⟨rfl, generateAcceptKey_length k₁, by rw [hk], by decide⟩

theorem claim_C2_accept_key_witness :
    generateAcceptKey ("abc") = base64Encode (sha1 (utf8Bytes ("abc" ++ webSocketGUID))) ∧
    (generateAcceptKey ("abc")).length = 28 ∧
    generateAcceptKey ("abc") = generateAcceptKey ("abc") ∧
    generateAcceptKey ("dGhlIHNhbXBsZSBub25jZQ==") = ("s3pPLMBiTxaQ9kYGzzhZRbK+xOo=") :=
  claim_C2_accept_key ("abc") ("abc") rfl
